import Mathlib

/-!
Shallow embedding of the asana-task-exporter repository (Python) in Lean 4,
used to settle the claims C1..C10 about its specification.

Conventions of the embedding:
* Python `date`/`datetime` values are modelled as integers (day ordinals /
  timestamps); only order and day-difference arithmetic are used by the code.
* Python `float` arithmetic in the effort-estimation helpers is modelled with
  exact rationals; `int(x)` is truncation toward zero (`pyTrunc`).
* Python dictionaries are association lists (`alGet`/`alSet`/`alHas`); JSON
  values are the inductive `JVal`.
* The external libraries (Fernet symmetric encryption, UTF-8 codec of `str`)
  are abstracted as structures carrying their documented round-trip
  contracts; base64 (`base64.b64encode`/`b64decode`) is modelled concretely.
* File-system state of the configuration store is the `World` structure;
  disk failures are injected through `World.saveOk`.
-/

/-- Truncation toward zero on rationals, the behaviour of Python `int(x)`
for a float argument. -/
def pyTrunc (q : ℚ) : Int :=
  if q < 0 then -(Int.floor (-q)) else Int.floor q

/-- Python `int(s)` on a string: optional surrounding whitespace, optional
sign, then decimal digits.  (Underscore digit grouping is not modelled; no
claim depends on it.) -/
def digitsVal (ds : List Char) : Int :=
  ds.foldl (fun a c => a * 10 + (Int.ofNat (c.toNat - 48))) 0

/-- Strip surrounding whitespace of a character list. -/
def pyStrip (l : List Char) : List Char :=
  ((l.dropWhile Char.isWhitespace).reverse.dropWhile Char.isWhitespace).reverse

def pyIntParse (s : String) : Option Int :=
  match pyStrip s.data with
  | [] => none
  | c :: ds =>
    if c = '-' then
      if ds ≠ [] ∧ ds.all Char.isDigit then some (-(digitsVal ds)) else none
    else if c = '+' then
      if ds ≠ [] ∧ ds.all Char.isDigit then some (digitsVal ds) else none
    else
      if (c :: ds).all Char.isDigit then some (digitsVal (c :: ds)) else none

/-- Association-list lookup, first match: Python `dict.get(k)`. -/
def alGet {β : Type} (l : List (String × β)) (k : String) : Option β :=
  match l with
  | [] => none
  | (k', v) :: rest => if k' = k then some v else alGet rest k

/-- Python `dict.get(k, default)`. -/
def alGetD {β : Type} (l : List (String × β)) (k : String) (d : β) : β :=
  (alGet l k).getD d

/-- Python `k in dict`. -/
def alHas {β : Type} (l : List (String × β)) (k : String) : Bool :=
  (alGet l k).isSome

/-- Python `str.split(sep)` for a one-character separator, over the
character list (the library `String.splitOn` is not kernel-reducible). -/
def splitOnChar (sep : Char) : List Char → List (List Char)
  | [] => [[]]
  | c :: rest =>
    if c = sep then [] :: splitOnChar sep rest
    else
      match splitOnChar sep rest with
      | [] => [[c]]
      | g :: gs => (c :: g) :: gs

def pySplit (s : String) (sep : Char) : List String :=
  (splitOnChar sep s.data).map String.mk

/-- Python `dict[k] = v`: replace the first binding of `k`, appending when
absent (dictionaries never hold duplicate keys, so this is faithful). -/
def alSet {β : Type} (l : List (String × β)) (k : String) (v : β) : List (String × β) :=
  match l with
  | [] => [(k, v)]
  | (k', v') :: rest => if k' = k then (k', v) :: rest else (k', v') :: alSet rest k v

/-- JSON-like values, the shape of the persisted configuration mapping.
`jbool` is kept distinct from `jint` but counts as an integer for
`isinstance(x, int)` (Python's `bool` is a subclass of `int`). -/
inductive JVal : Type where
  | jnull : JVal
  | jbool : Bool → JVal
  | jint : Int → JVal
  | jstr : String → JVal
  | jlist : List JVal → JVal
  | jdict : List (String × JVal) → JVal

/-- Python truthiness of a JSON value. -/
def pyTruthy : JVal → Bool
  | .jnull => false
  | .jbool b => b
  | .jint n => n ≠ 0
  | .jstr s => s ≠ ""
  | .jlist l => ¬ l.isEmpty
  | .jdict d => ¬ d.isEmpty

def isStr : JVal → Bool
  | .jstr _ => true
  | _ => false

/-- `isinstance(x, int)` — `True`/`False` also satisfy it in Python. -/
def isIntLike : JVal → Bool
  | .jint _ => true
  | .jbool _ => true
  | _ => false

def isList : JVal → Bool
  | .jlist _ => true
  | _ => false

def pyIntVal : JVal → Int
  | .jint n => n
  | .jbool b => if b then 1 else 0
  | _ => 0

def strValD : JVal → String
  | .jstr s => s
  | _ => ""

/-! ## src/business/config_schema.py -/

/-- `AVAILABLE_TASK_FIELDS`: the business-layer catalog, field key to
Japanese display label. -/
def AVAILABLE_TASK_FIELDS : List (String × String) :=
  [ ("name", "タスク名"),
    ("created_at", "作成日時"),
    ("modified_at", "更新日時"),
    ("completed", "完了状態"),
    ("assignee", "担当者"),
    ("due_date", "期限"),
    ("notes", "メモ"),
    ("tags", "タグ"),
    ("projects", "プロジェクト"),
    ("parent", "親タスク"),
    ("subtasks", "サブタスク数"),
    ("dependencies", "依存関係"),
    ("custom_fields", "カスタムフィールド") ]

def AVAILABLE_FIELD_KEYS : List String := AVAILABLE_TASK_FIELDS.map Prod.fst

def REQUIRED_FIELDS : List String := [ "name", "created_at"]

def DEFAULT_SELECTED_FIELDS : List String :=
  [ "name", "created_at", "assignee", "completed", "due_date"]

/-- `validate_selected_fields`: empty input returns a copy of the default
selection; otherwise each missing required field is inserted at position 0
(in catalog order of the required list), then keys absent from
`AVAILABLE_TASK_FIELDS` are dropped. -/
def validate_selected_fields (selected_fields : List String) : List String :=
  if selected_fields.isEmpty then DEFAULT_SELECTED_FIELDS
  else
    let validated := REQUIRED_FIELDS.foldl
      (fun acc required_field =>
        if required_field ∈ acc then acc else required_field :: acc)
      selected_fields
    validated.filter (fun f => decide (f ∈ AVAILABLE_FIELD_KEYS))

/-! ## src/business/excel_exporter.py (estimation helpers and progress) -/

/-- `ExcelExporter.estimate_processing_time`. -/
def estimate_processing_time (task_count field_count : Int) : Int :=
  let base_time : ℚ := (task_count : ℚ) * 0.01
  let field_factor : ℚ := 1 + ((field_count : ℚ) - 5) * 0.1
  let format_time : ℚ := (task_count : ℚ) * 0.005
  let total_time : ℚ := base_time * field_factor + format_time
  max 1 (min (pyTrunc total_time) 300)

/-- `ExcelExporter.get_memory_usage_estimate`. -/
def get_memory_usage_estimate (task_count field_count : Int) : Int :=
  let per_task_memory : ℚ := (field_count : ℚ) * 0.5
  let total_memory : ℚ := ((task_count : ℚ) * per_task_memory) / 1024
  let overhead : ℚ := max 10 (total_memory * 0.3)
  pyTrunc (total_memory + overhead)

/-- `ExcelExporter._update_progress`: the value handed to the caller's
progress callback, `none` when no callback is registered. -/
def update_progress (has_callback : Bool) (progress : Int) : Option Int :=
  if has_callback then some (min (max progress 0) 100) else none

/-! ## src/business/task_manager.py (date-range validation) -/

def MAX_DATE_RANGE_DAYS : Int := 365

structure DateValidationErrorM where
  msg : String
deriving DecidableEq

/-- `TaskManager.validate_date_range` over day ordinals; `today` is the
value of `date.today()`.  Every failure is a `DateValidationError`. -/
def validate_date_range (today start_date end_date : Int) :
    Except DateValidationErrorM Bool :=
  if start_date > end_date then
    .error ⟨ "開始日は終了日より前である必要があります"⟩
  else if start_date > today then
    .error ⟨ "開始日は今日以前である必要があります"⟩
  else if end_date > today then
    .error ⟨ "終了日は今日以前である必要があります"⟩
  else if end_date - start_date > MAX_DATE_RANGE_DAYS then
    .error ⟨ "日付範囲は365日以内である必要があります"⟩
  else if start_date < today - 365 then
    .error ⟨ "開始日は1年前以降である必要があります"⟩
  else .ok true

def exceptOk {ε α : Type} : Except ε α → Bool
  | .ok _ => true
  | .error _ => false

/-! ## src/data/models.py -/

/-- A cell value of a task row (`Task.to_dict` produces heterogeneous
values: strings, booleans, `None`, and custom-field scalars). -/
inductive CellVal : Type where
  | vnull : CellVal
  | vstr : String → CellVal
  | vbool : Bool → CellVal
  | vint : Int → CellVal
deriving DecidableEq

/-- Stand-in for `datetime.isoformat()` over the integer timestamp model:
any injective rendering works, no claim inspects the text. -/
def datetime_isoformat (t : Int) : String := toString t

structure TaskM : Type where
  id : String
  name : String
  created_at : Int
  modified_at : Int
  completed : Bool
  assignee : Option String := none
  due_date : Option Int := none
  notes : String := ""
  custom_fields : List (String × CellVal) := []

/-- The invariants checked by `Task.validate` at construction (type checks
are discharged by the embedding's typing). -/
def TaskM.Valid (t : TaskM) : Prop :=
  t.id ≠ "" ∧ t.id.data.all Char.isDigit ∧ t.name ≠ "" ∧
    t.created_at ≤ t.modified_at

/-- The dict comprehension of `Task.to_dict`:
`{key: base.get(key) for key in selected_fields if key in base}`.
Iteration order of `selected_fields` fixes positions; re-assigning an
existing key keeps its first position (and the identical value). -/
def pick_fields (base : List (String × CellVal)) :
    List String → List (String × CellVal) → List (String × CellVal)
  | [], acc => acc
  | key :: rest, acc =>
    match alGet base key with
    | some v =>
      if (alGet acc key).isSome then pick_fields base rest acc
      else pick_fields base rest (acc ++ [(key, v)])
    | none => pick_fields base rest acc

/-- `Task.to_dict(selected_fields)`.  An empty selected list is falsy in
Python, so it returns the full base mapping, like `None`. -/
def TaskM.to_dict (task : TaskM) (selected_fields : Option (List String)) :
    List (String × CellVal) :=
  let base0 : List (String × CellVal) :=
    [ ("id", .vstr task.id),
      ("name", .vstr task.name),
      ("created_at", .vstr (datetime_isoformat task.created_at)),
      ("modified_at", .vstr (datetime_isoformat task.modified_at)),
      ("completed", .vbool task.completed),
      ("assignee", match task.assignee with
        | some a => .vstr a
        | none => .vnull),
      ("due_date", match task.due_date with
        | some d => .vstr (datetime_isoformat d)
        | none => .vnull),
      ("notes", .vstr task.notes) ]
  let base_data := task.custom_fields.foldl
    (fun acc kv => alSet acc kv.1 kv.2) base0
  match selected_fields with
  | some sel => if sel.isEmpty then base_data else pick_fields base_data sel []
  | none => base_data

/-- `Task.is_in_date_range`: compares the date portion of `created_at`;
`toDate` abstracts `datetime.date()` (monotone projection of timestamps to
day ordinals). -/
def TaskM.is_in_date_range (toDate : Int → Int) (task : TaskM)
    (start_date end_date : Int) : Bool :=
  start_date ≤ toDate task.created_at ∧ toDate task.created_at ≤ end_date

structure TaskFieldM : Type where
  name : String
  display_name : String
  field_type : String
  required : Bool := false

/-- `DEFAULT_TASK_FIELDS` of src/data/models.py. -/
def DEFAULT_TASK_FIELDS : List TaskFieldM :=
  [ ⟨ "id", "タスクID", "string", true⟩,
    ⟨ "name", "タスク名", "string", true⟩,
    ⟨ "created_at", "作成日時", "datetime", true⟩,
    ⟨ "modified_at", "更新日時", "datetime", false⟩,
    ⟨ "completed", "完了状態", "boolean", false⟩,
    ⟨ "assignee", "担当者", "string", false⟩,
    ⟨ "due_date", "期限", "date", false⟩,
    ⟨ "notes", "メモ", "text", false⟩ ]

/-! ## src/business/task_manager.py (field filtering) -/

def get_available_field_names : List String :=
  DEFAULT_TASK_FIELDS.map TaskFieldM.name

def get_required_field_names : List String :=
  (DEFAULT_TASK_FIELDS.filter TaskFieldM.required).map TaskFieldM.name

inductive TMErr : Type where
  | validationError : String → TMErr
  | taskManagerError : String → TMErr
deriving DecidableEq

/-- One entry of `available_field_definitions` (the live field catalog);
the code reads only `field['key']`. -/
structure FieldDefM : Type where
  key : String
  label : String := ""
  ftype : String := ""
  required : Bool := false

/-- The available-field universe `filter_tasks_by_fields` works against:
the live catalog's keys when a non-empty catalog was supplied (an empty
list is falsy in Python), else the static eight keys. -/
def availableFieldsOf (available_field_definitions : Option (List FieldDefM)) :
    List String :=
  match available_field_definitions with
  | some defsL =>
    if defsL.isEmpty then get_available_field_names
    else defsL.map FieldDefM.key
  | none => get_available_field_names

/-- `TaskManager.filter_tasks_by_fields`.  `pyset` abstracts Python's
`list(set(...))` de-duplication (order unspecified; theorems take its
membership contract as a hypothesis).  Per-task `to_dict` conversion is
total in the pure model, so the per-task failure-skipping branch of the
source contributes no rows lost. -/
def filter_tasks_by_fields (pyset : List String → List String)
    (tasks : List TaskM) (selected_fields : List String)
    (available_field_definitions : Option (List FieldDefM)) :
    Except TMErr (List (List (String × CellVal))) :=
  if tasks.isEmpty then .ok []
  else if selected_fields.isEmpty then
    .error (.validationError "選択されたフィールドが空です")
  else
    let available_fields := availableFieldsOf available_field_definitions
    let invalid_fields :=
      selected_fields.filter (fun f => decide (f ∉ available_fields))
    let selected1 :=
      if invalid_fields.isEmpty then selected_fields
      else selected_fields.filter (fun f => decide (f ∈ available_fields))
    if ¬ invalid_fields.isEmpty ∧ selected1.isEmpty then
      .error (.validationError "有効なフィールドが1つも選択されていません")
    else
      let required_fields := get_required_field_names
      let missing_required :=
        required_fields.filter (fun f => decide (f ∉ selected1))
      let selected2 :=
        if missing_required.isEmpty then selected1
        else pyset (selected1 ++ missing_required)
      let filtered_tasks := tasks.map (fun t => t.to_dict (some selected2))
      if filtered_tasks.isEmpty ∧ ¬ tasks.isEmpty then
        .error (.taskManagerError "すべてのタスクのフィルタリングに失敗しました")
      else .ok filtered_tasks

/-! ## src/data/asana_client.py (retry loop, rate-limit handling) -/

/-- One injected HTTP response: status code and the raw `Retry-After`
header when present. -/
structure RLResponse : Type where
  status : Nat
  retry_after : Option String := none

inductive ReqOutcome : Type where
  | success : ReqOutcome
  | rateLimited : ReqOutcome
  | httpError : Nat → ReqOutcome
  | maxRetries : ReqOutcome
deriving DecidableEq

def MAX_RETRIES : Nat := 3

def RETRY_DELAY : ℚ := 1

/-- The attempt loop of `AsanaClient._make_request` projected onto
response-driven executions (no timeouts/connection failures injected),
accumulating the seconds slept.  On HTTP 429 it applies
`_handle_rate_limit`: at the final attempt it raises the rate-limit error
without sleeping, otherwise it sleeps the parsed `Retry-After` seconds or
the exponential fallback `2 ^ attempt * RETRY_DELAY`.  `pyFloat` abstracts
Python `float(s)` parsing. -/
def make_request_loop (pyFloat : String → Option ℚ)
    (responses : Nat → RLResponse) :
    Nat → Nat → List ℚ → List ℚ × ReqOutcome
  | 0, _, sleeps => (sleeps, .maxRetries)
  | rem + 1, attempt, sleeps =>
    let r := responses attempt
    if r.status = 429 then
      if MAX_RETRIES - 1 ≤ attempt then (sleeps, .rateLimited)
      else
        let wait : ℚ :=
          match r.retry_after with
          | some h =>
            match pyFloat h with
            | some q => q
            | none => (2 ^ attempt : ℚ) * RETRY_DELAY
          | none => (2 ^ attempt : ℚ) * RETRY_DELAY
        make_request_loop pyFloat responses rem (attempt + 1) (sleeps ++ [wait])
    else if r.status < 400 then (sleeps, .success)
    else (sleeps, .httpError r.status)

/-- `_make_request` runs the loop for `MAX_RETRIES` attempts. -/
def make_request_sim (pyFloat : String → Option ℚ)
    (responses : Nat → RLResponse) : List ℚ × ReqOutcome :=
  make_request_loop pyFloat responses MAX_RETRIES 0 []

/-! ## base64 (standard alphabet), as used by `base64.b64encode/b64decode` -/

def B64_ALPHABET : List Char :=
  ( "ABCDEFGHIJKLMNOPQRSTUVWXYZabcdefghijklmnopqrstuvwxyz0123456789+/").data

def b64_char (n : Nat) : Char := B64_ALPHABET.getD n 'A'

def b64_find (c : Char) : List Char → Option Nat
  | [] => none
  | a :: rest => if a = c then some 0 else (b64_find c rest).map (· + 1)

def b64_index (c : Char) : Option Nat := b64_find c B64_ALPHABET

/-- base64 encoding of a byte list (values < 256), 3 bytes to 4 chars with
`=` padding. -/
def b64_encode : List Nat → List Char
  | [] => []
  | [a] => [b64_char (a / 4), b64_char (a % 4 * 16), '=', '=']
  | [a, b] =>
    [b64_char (a / 4), b64_char (a % 4 * 16 + b / 16), b64_char (b % 16 * 4), '=']
  | a :: b :: c :: rest =>
    b64_char (a / 4) :: b64_char (a % 4 * 16 + b / 16) ::
      b64_char (b % 16 * 4 + c / 64) :: b64_char (c % 64) :: b64_encode rest

/-- base64 decoding; `none` on malformed input (Python raises
`binascii.Error`). -/
def b64_decode : List Char → Option (List Nat)
  | c1 :: c2 :: c3 :: c4 :: rest =>
    (match b64_index c1, b64_index c2 with
     | some w, some x =>
       if c3 = '=' then
         if c4 = '=' ∧ rest = [] then some [w * 4 + x / 16] else none
       else
         match b64_index c3 with
         | some y =>
           if c4 = '=' then
             if rest = [] then some [w * 4 + x / 16, x % 16 * 16 + y / 4]
             else none
           else
             match b64_index c4 with
             | some z =>
               (b64_decode rest).map
                 (fun tail => (w * 4 + x / 16) :: (x % 16 * 16 + y / 4) ::
                   (y % 4 * 64 + z) :: tail)
             | none => none
         | none => none
     | _, _ => none)
  | [] => some []
  | _ => none

def b64_encode_string (bytes : List Nat) : String := String.mk (b64_encode bytes)

def b64_decode_string (s : String) : Option (List Nat) := b64_decode s.data

/-! ## External primitives (Fernet, UTF-8 codec), abstracted with their
documented contracts -/

/-- The Fernet symmetric scheme keyed by the stored key: an external
library (`cryptography.fernet`), abstracted by its contract — decryption
inverts encryption, ciphertexts are non-empty byte strings. -/
structure FernetLike : Type where
  enc : List Nat → List Nat
  dec : List Nat → Option (List Nat)
  dec_enc : ∀ b, dec (enc b) = some b
  enc_byte : ∀ b, (∀ x ∈ b, x < 256) → ∀ x ∈ enc b, x < 256
  enc_ne_nil : ∀ b, enc b ≠ []

/-- Python's `str.encode('utf-8')` / `bytes.decode('utf-8')` pair,
abstracted by its contract. -/
structure Utf8Like : Type where
  encB : String → List Nat
  decB : List Nat → Option String
  decB_encB : ∀ s, decB (encB s) = some s
  byte_lt : ∀ s, ∀ x ∈ encB s, x < 256

/-! ## src/business/config_manager.py -/

/-- `ConfigManager.encrypt_sensitive_data`: empty input is returned
untouched without invoking the primitive; otherwise
`b64encode(fernet.encrypt(data.encode('utf-8'))).decode('utf-8')`. -/
def encrypt_sensitive_data (F : FernetLike) (U : Utf8Like) (data : String) :
    String :=
  if data = "" then ""
  else b64_encode_string (F.enc (U.encB data))

/-- `ConfigManager.decrypt_sensitive_data`: empty input is returned
untouched; any failure of the decoding chain raises a `ValueError`. -/
def decrypt_sensitive_data (F : FernetLike) (U : Utf8Like)
    (encrypted_data : String) : Except String String :=
  if encrypted_data = "" then .ok ""
  else
    match b64_decode_string encrypted_data with
    | none => .error "データの復号化に失敗しました"
    | some decoded =>
      match F.dec decoded with
      | none => .error "データの復号化に失敗しました"
      | some decrypted =>
        match U.decB decrypted with
        | none => .error "データの復号化に失敗しました"
        | some s => .ok s

/-- The configuration-store state: the JSON file's parsed content (none
when absent), a corrupt-JSON flag, a disk-reliability flag for saves, the
user's home directory, and directory-existence facts of the host. -/
structure World : Type where
  file : Option JVal := none
  fileCorrupt : Bool := false
  saveOk : Bool := true
  home : String := "/home/user"
  docsExists : Bool := true
  dirExists : String → Bool := fun _ => false

/-- `ConfigManager.get_default_config` (the `Path.home() / "Documents"`
join is modelled as string concatenation). -/
def get_default_config (home : String) : JVal :=
  .jdict
    [ ("asana", .jdict
        [ ("access_token", .jstr ""),
          ("selected_project_id", .jstr ""),
          ("selected_project_name", .jstr "") ]),
      ("export", .jdict
        [ ("default_date_range", .jint 30),
          ("selected_fields", .jlist (DEFAULT_SELECTED_FIELDS.map JVal.jstr)),
          ("output_directory", .jstr (home ++ "/Documents")) ]),
      ("ui", .jdict
        [ ("window_size", .jstr "800x600"),
          ("last_export_path", .jstr "") ]) ]

/-- `config.get("asana", {}).get("access_token")` as an optional value. -/
def getToken (config : JVal) : Option JVal :=
  match config with
  | .jdict d =>
    match alGet d "asana" with
    | some (.jdict ad) => alGet ad "access_token"
    | _ => none
  | _ => none

def tokenStr (config : JVal) : String :=
  match getToken config with
  | some (.jstr s) => s
  | _ => ""

/-- `config["asana"]["access_token"] = v` (callers guard on `getToken`
being present, so the fallthrough branches are unreachable). -/
def setToken (config : JVal) (v : JVal) : JVal :=
  match config with
  | .jdict d =>
    match alGet d "asana" with
    | some (.jdict ad) =>
      .jdict (alSet d "asana" (.jdict (alSet ad "access_token" v)))
    | _ => config
  | _ => config

/-- `ConfigManager.validate_config`.  The nested checks mirror the source
line by line; a non-dict where a `.get` is attempted is the
`AttributeError` path, re-raised by the final `except`. -/
def validate_config (config : JVal) : Except String Bool :=
  match config with
  | .jdict d =>
    if alHas d "asana" then
      if alHas d "export" then
        if alHas d "ui" then
          match alGetD d "asana" JVal.jnull with
          | .jdict asana_c =>
            if isStr (alGetD asana_c "access_token" (.jstr "")) then
              if isStr (alGetD asana_c "selected_project_id" (.jstr "")) then
                if isStr (alGetD asana_c "selected_project_name" (.jstr "")) then
                  match alGetD d "export" JVal.jnull with
                  | .jdict export_c =>
                    if isIntLike (alGetD export_c "default_date_range" (.jint 0)) then
                      if pyIntVal (alGetD export_c "default_date_range" (.jint 0)) ≤ 0 then
                        .error "default_date_range は正の整数である必要があります"
                      else
                        if isList (alGetD export_c "selected_fields" (.jlist [])) then
                          if isStr (alGetD export_c "output_directory" (.jstr "")) then
                            match alGetD d "ui" JVal.jnull with
                            | .jdict ui_c =>
                              if isStr (alGetD ui_c "window_size" (.jstr "")) then
                                let ws := strValD (alGetD ui_c "window_size" (.jstr ""))
                                if ws ≠ "" ∧ 'x' ∈ ws.data then
                                  match pySplit ws 'x' with
                                  | [w, h] =>
                                    if (pyIntParse w).isSome ∧ (pyIntParse h).isSome then
                                      .ok true
                                    else .error "window_size の形式が無効です"
                                  | _ => .error "window_size の形式が無効です"
                                else .ok true
                              else .error "window_size は文字列である必要があります"
                            | _ => .error "AttributeError"
                          else .error "output_directory は文字列である必要があります"
                        else .error "selected_fields はリストである必要があります"
                    else .error "default_date_range は整数である必要があります"
                  | _ => .error "AttributeError"
                else .error "selected_project_name は文字列である必要があります"
              else .error "selected_project_id は文字列である必要があります"
            else .error "access_token は文字列である必要があります"
          | _ => .error "AttributeError"
        else .error "必須セクション ui が見つかりません"
      else .error "必須セクション export が見つかりません"
    else .error "必須セクション asana が見つかりません"
  | _ => .error "TypeError"

/-- `ConfigManager.save_config`: validate, deep-copy (implicit in the pure
model), encrypt the access token when truthy, then write atomically; a
disk failure raises `IOError` and the stray temporary file is removed
(so the stored file is unchanged). -/
def save_config (F : FernetLike) (U : Utf8Like) (w : World) (config : JVal) :
    Except String World :=
  match validate_config config with
  | .error e => .error e
  | .ok _ =>
    let config_to_save :=
      match getToken config with
      | some tv =>
        if pyTruthy tv then
          setToken config (.jstr (encrypt_sensitive_data F U (tokenStr config)))
        else config
      | none => config
    if w.saveOk then .ok { w with file := some config_to_save, fileCorrupt := false }
    else .error "設定ファイルの保存に失敗しました"

/-- `ConfigManager.load_config`: default when the file is absent; a JSON
parse failure raises a `ValueError`; a decryption or validation failure is
swallowed and the default configuration is returned. -/
def load_config (F : FernetLike) (U : Utf8Like) (w : World) :
    Except String JVal :=
  match w.file with
  | none => .ok (get_default_config w.home)
  | some stored =>
    if w.fileCorrupt then .error "設定ファイルの形式が無効です"
    else
      let afterDec : Option JVal :=
        match getToken stored with
        | some tv =>
          if pyTruthy tv then
            match decrypt_sensitive_data F U (tokenStr stored) with
            | .ok t => some (setToken stored (.jstr t))
            | .error _ => none
          else some stored
        | none => some stored
      match afterDec with
      | none => .ok (get_default_config w.home)
      | some cfg =>
        match validate_config cfg with
        | .ok _ => .ok cfg
        | .error _ => .ok (get_default_config w.home)

def config_exists (w : World) : Bool := w.file.isSome

/-! ## src/business/config_schema.py (typed records) and
src/business/config_initializer.py -/

structure AsanaConfigM : Type where
  access_token : String := ""
  selected_project_id : String := ""
  selected_project_name : String := ""
deriving DecidableEq

structure ExportConfigM : Type where
  default_date_range : Int := 30
  selected_fields : List String
  output_directory : String
deriving DecidableEq

structure UIConfigM : Type where
  window_size : String := "800x600"
  last_export_path : String := ""
deriving DecidableEq

structure AppConfigM : Type where
  asana : AsanaConfigM
  exportCfg : ExportConfigM
  ui : UIConfigM
deriving DecidableEq

/-- `ExportConfig.__post_init__`: a `None` field list becomes the default
selection, an empty output directory becomes `home / "Documents"`
(unconditionally — no existence check here). -/
def mkExportConfig (home : String) (selected_fields : Option (List String))
    (output_directory : String) : ExportConfigM :=
  { default_date_range := 30,
    selected_fields := selected_fields.getD DEFAULT_SELECTED_FIELDS,
    output_directory :=
      if output_directory = "" then home ++ "/Documents" else output_directory }

/-- `AppConfig()` with all-default children. -/
def mkAppConfigDefault (home : String) : AppConfigM :=
  { asana := {}, exportCfg := mkExportConfig home none "", ui := {} }

/-- `AppConfig.to_dict` (`dataclasses.asdict`). -/
def AppConfigM.to_dict (c : AppConfigM) : JVal :=
  .jdict
    [ ("asana", .jdict
        [ ("access_token", .jstr c.asana.access_token),
          ("selected_project_id", .jstr c.asana.selected_project_id),
          ("selected_project_name", .jstr c.asana.selected_project_name) ]),
      ("export", .jdict
        [ ("default_date_range", .jint c.exportCfg.default_date_range),
          ("selected_fields", .jlist (c.exportCfg.selected_fields.map JVal.jstr)),
          ("output_directory", .jstr c.exportCfg.output_directory) ]),
      ("ui", .jdict
        [ ("window_size", .jstr c.ui.window_size),
          ("last_export_path", .jstr c.ui.last_export_path) ]) ]

def jstrList : List JVal → Option (List String)
  | [] => some []
  | .jstr s :: rest => (jstrList rest).map (s :: ·)
  | _ => none

/-- `AsanaConfig(**data)`: unexpected keyword arguments raise `TypeError`;
missing ones take the dataclass defaults.  (Python does not type-check the
keyword values; the typed model additionally requires the declared types,
which only turns some junk-accepting runs into the same fallback path.) -/
def mkAsanaFrom : JVal → Except String AsanaConfigM
  | .jdict ad =>
    if (ad.map Prod.fst).all
        (fun k => decide (k ∈ [ "access_token", "selected_project_id",
          "selected_project_name"])) then
      match alGetD ad "access_token" (.jstr ""),
          alGetD ad "selected_project_id" (.jstr ""),
          alGetD ad "selected_project_name" (.jstr "") with
      | .jstr t, .jstr pid, .jstr pname => .ok ⟨t, pid, pname⟩
      | _, _, _ => .error "TypeError"
    else .error "TypeError: unexpected keyword argument"
  | _ => .error "TypeError"

def mkExportFrom (home : String) : JVal → Except String ExportConfigM
  | .jdict ed =>
    if (ed.map Prod.fst).all
        (fun k => decide (k ∈ [ "default_date_range", "selected_fields",
          "output_directory"])) then
      match alGetD ed "default_date_range" (.jint 30) with
      | .jint n =>
        match alGet ed "selected_fields" with
        | some (.jlist l) =>
          match jstrList l with
          | some fields =>
            match alGetD ed "output_directory" (.jstr "") with
            | .jstr dir => .ok (⟨n, fields,
                if dir = "" then home ++ "/Documents" else dir⟩)
            | _ => .error "TypeError"
          | none => .error "TypeError"
        | none => .ok (mkExportConfig home none (strValD (alGetD ed "output_directory" (.jstr ""))))
        | some _ => .error "TypeError"
      | _ => .error "TypeError"
    else .error "TypeError: unexpected keyword argument"
  | _ => .error "TypeError"

def mkUIFrom : JVal → Except String UIConfigM
  | .jdict ud =>
    if (ud.map Prod.fst).all
        (fun k => decide (k ∈ [ "window_size", "last_export_path"])) then
      match alGetD ud "window_size" (.jstr "800x600"),
          alGetD ud "last_export_path" (.jstr "") with
      | .jstr ws, .jstr lep => .ok ⟨ws, lep⟩
      | _, _ => .error "TypeError"
    else .error "TypeError: unexpected keyword argument"
  | _ => .error "TypeError"

/-- `AppConfig.from_dict`: missing sections default to empty dicts. -/
def AppConfigM.from_dict (home : String) (data : JVal) :
    Except String AppConfigM :=
  match data with
  | .jdict d =>
    match mkAsanaFrom (alGetD d "asana" (.jdict [])) with
    | .error e => .error e
    | .ok a =>
      match mkExportFrom home (alGetD d "export" (.jdict [])) with
      | .error e => .error e
      | .ok e =>
        match mkUIFrom (alGetD d "ui" (.jdict [])) with
        | .error e2 => .error e2
        | .ok u => .ok ⟨a, e, u⟩
  | _ => .error "TypeError"

def is_first_run (w : World) : Bool := ¬ config_exists w

/-- `ConfigInitializer.initialize_default_config`: default `AppConfig`,
output directory overridden with documents-or-home (here the existence
check happens), default field selection, then persisted; a save failure is
re-raised as a `RuntimeError`. -/
def initialize_default_config (F : FernetLike) (U : Utf8Like) (w : World) :
    Except String (AppConfigM × World) :=
  let config0 := mkAppConfigDefault w.home
  let outdir := if w.docsExists then w.home ++ "/Documents" else w.home
  let config := { config0 with exportCfg :=
    { config0.exportCfg with
        output_directory := outdir,
        selected_fields := DEFAULT_SELECTED_FIELDS } }
  match save_config F U w config.to_dict with
  | .ok w2 => .ok (config, w2)
  | .error e => .error ("デフォルト設定の保存に失敗しました: " ++ e)

def fieldsTruthy : Option (List String) → Bool
  | none => false
  | some l => ¬ l.isEmpty

/-- `ConfigInitializer.initialize_with_user_input`: defaults, then the
token verbatim when non-empty, the output directory only when it exists
and is a directory (else documents), the field selection through
`validate_selected_fields`; persisted, failure fatal. -/
def initialize_with_user_input (F : FernetLike) (U : Utf8Like) (w : World)
    (access_token output_directory : String)
    (selected_fields : Option (List String)) :
    Except String (AppConfigM × World) :=
  let config0 := mkAppConfigDefault w.home
  let c1 :=
    if access_token ≠ "" then
      { config0 with asana := { config0.asana with access_token := access_token } }
    else config0
  let c2 :=
    if output_directory ≠ "" then
      if w.dirExists output_directory then
        { c1 with exportCfg := { c1.exportCfg with output_directory := output_directory } }
      else
        { c1 with exportCfg := { c1.exportCfg with
            output_directory := w.home ++ "/Documents" } }
    else c1
  let c3 :=
    if fieldsTruthy selected_fields then
      { c2 with exportCfg := { c2.exportCfg with
          selected_fields := validate_selected_fields (selected_fields.getD []) } }
    else c2
  match save_config F U w c3.to_dict with
  | .ok w2 => .ok (c3, w2)
  | .error e => .error ("設定の保存に失敗しました: " ++ e)

/-- `ConfigInitializer.setup_application`: on first run delegate to the
interactive or default initializer, else load the stored configuration;
any exception in this orchestration falls back to
`initialize_default_config` — whose own failure is NOT guarded. -/
def setup_application (F : FernetLike) (U : Utf8Like) (w : World)
    (access_token output_directory : String)
    (selected_fields : Option (List String)) :
    Except String (AppConfigM × World) :=
  let body : Except String (AppConfigM × World) :=
    if is_first_run w then
      if access_token ≠ "" ∨ output_directory ≠ "" ∨
          fieldsTruthy selected_fields then
        initialize_with_user_input F U w access_token output_directory
          selected_fields
      else initialize_default_config F U w
    else
      match load_config F U w with
      | .ok cfg =>
        match AppConfigM.from_dict w.home cfg with
        | .ok a => .ok (a, w)
        | .error e => .error e
      | .error e => .error e
  match body with
  | .ok r => .ok r
  | .error _ => initialize_default_config F U w

/-- Projection used by claim C7: the `export.output_directory` entry of a
configuration mapping, as a string. -/
def outputDirOf (config : JVal) : Option String :=
  match config with
  | .jdict d =>
    match alGet d "export" with
    | some (.jdict ed) =>
      match alGet ed "output_directory" with
      | some (.jstr s) => some s
      | _ => none
    | _ => none
  | _ => none

/-! ## Concrete instances of the abstract primitives, used by witnesses -/

/-- Three-byte little-endian rendering of one Unicode scalar value. -/
def charBytes3 (c : Char) : List Nat :=
  [c.toNat % 256, c.toNat / 256 % 256, c.toNat / 65536]

def charsBytes : List Char → List Nat
  | [] => []
  | c :: rest => charBytes3 c ++ charsBytes rest

def bytesChars : List Nat → Option (List Char)
  | [] => some []
  | b0 :: b1 :: b2 :: rest =>
    (bytesChars rest).map (fun cs => Char.ofNat (b0 + 256 * b1 + 65536 * b2) :: cs)
  | _ => none

def strBytesW (s : String) : List Nat := charsBytes s.data

def strUnbytesW (bytes : List Nat) : Option String :=
  (bytesChars bytes).map String.mk

/-- A concrete `Utf8Like` codec (an injective byte rendering with a
computable inverse), used to instantiate witnesses. -/
def utf8W : Utf8Like where
  encB := strBytesW
  decB := strUnbytesW
  decB_encB := by
    intro s
    suffices h : ∀ l : List Char, bytesChars (charsBytes l) = some l by
      simp [strBytesW, strUnbytesW, h s.data]
    intro l
    induction l with
    | nil => rfl
    | cons c rest ih =>
      have hval : c.toNat < 1114112 := by
        rcases c.valid with h | ⟨h1, h2⟩
        · exact Nat.lt_trans h (by norm_num)
        · exact h2
      have harith : c.toNat % 256 + 256 * (c.toNat / 256 % 256) +
          65536 * (c.toNat / 65536) = c.toNat := by omega
      simp [charsBytes, charBytes3, bytesChars, ih, harith, Char.ofNat_toNat]
  byte_lt := by
    intro s
    suffices h : ∀ l : List Char, ∀ x ∈ charsBytes l, x < 256 by
      intro x hx; exact h s.data x hx
    intro l
    induction l with
    | nil => intro x hx; simp [charsBytes] at hx
    | cons c rest ih =>
      intro x hx
      simp only [charsBytes, charBytes3, List.mem_append] at hx
      rcases hx with hx | hx
      · have hval : c.toNat < 1114112 := by
          rcases c.valid with h | ⟨h1, h2⟩
          · exact Nat.lt_trans h (by norm_num)
          · exact h2
        simp only [List.mem_cons, List.mem_singleton] at hx
        rcases hx with rfl | rfl | rfl | hx
        · omega
        · omega
        · omega
        · simp at hx
      · exact ih x hx

/-- A concrete `FernetLike` scheme (prefix a marker byte; decryption drops
it), used to instantiate witnesses. -/
def fernetW : FernetLike where
  enc := fun b => 0 :: b
  dec := fun b =>
    match b with
    | _ :: t => some t
    | [] => none
  dec_enc := by intro b; rfl
  enc_byte := by
    intro b hb x hx
    rcases List.mem_cons.mp hx with rfl | hx
    · omega
    · exact hb x hx
  enc_ne_nil := by intro b; simp

/-! # Helper lemmas -/

theorem alGet_alSet_self {β : Type} (l : List (String × β)) (k : String) (v : β) :
    alGet (alSet l k v) k = some v := by
  induction l with
  | nil => simp [alSet, alGet]
  | cons hd tl ih =>
    obtain ⟨k', v'⟩ := hd
    by_cases h : k' = k
    · simp [alSet, alGet, h]
    · simp [alSet, alGet, h, ih]

theorem alSet_alSet_self {β : Type} (l : List (String × β)) (k : String) (u v : β) :
    alSet (alSet l k u) k v = alSet l k v := by
  induction l with
  | nil => simp [alSet]
  | cons hd tl ih =>
    obtain ⟨k', v'⟩ := hd
    by_cases h : k' = k
    · simp [alSet, h]
    · simp [alSet, h, ih]

theorem alSet_eq_of_get {β : Type} (l : List (String × β)) (k : String) (v : β)
    (h : alGet l k = some v) : alSet l k v = l := by
  induction l with
  | nil => simp [alGet] at h
  | cons hd tl ih =>
    obtain ⟨k', v'⟩ := hd
    by_cases hk : k' = k
    · simp [alGet, hk] at h
      simp [alSet, hk, h]
    · simp [alGet, hk] at h
      simp [alSet, hk, ih h]

theorem alGet_alSet_isSome {β : Type} (l : List (String × β)) (k x : String) (v : β)
    (h : (alGet l x).isSome = true) : (alGet (alSet l k v) x).isSome = true := by
  induction l with
  | nil => simp [alGet] at h
  | cons hd tl ih =>
    obtain ⟨k', v'⟩ := hd
    simp only [alSet]
    by_cases hk : k' = k
    · subst hk
      simp only [if_pos rfl, alGet]
      by_cases hx : k' = x
      · simp [hx]
      · simp only [if_neg hx]
        simp only [alGet, if_neg hx] at h
        exact h
    · simp only [if_neg hk, alGet]
      by_cases hx : k' = x
      · simp [hx]
      · simp only [if_neg hx]
        simp only [alGet, if_neg hx] at h
        exact ih h

theorem alGet_append_isSome {β : Type} (l l2 : List (String × β)) (x : String)
    (h : (alGet l x).isSome = true) : (alGet (l ++ l2) x).isSome = true := by
  induction l with
  | nil => simp [alGet] at h
  | cons hd tl ih =>
    obtain ⟨k', v'⟩ := hd
    by_cases hx : k' = x
    · simp [alGet, hx]
    · simp [alGet, hx] at *
      exact ih h

theorem alGet_append_single {β : Type} (l : List (String × β)) (k : String) (v : β) :
    (alGet (l ++ [(k, v)]) k).isSome = true := by
  induction l with
  | nil => simp [alGet]
  | cons hd tl ih =>
    obtain ⟨k', v'⟩ := hd
    by_cases hx : k' = k
    · simp [alGet, hx]
    · simp [alGet, hx]
      exact ih

theorem b64_index_b64_char : ∀ n : Nat, n < 64 → b64_index (b64_char n) = some n := by
  decide

theorem b64_char_ne_pad : ∀ n : Nat, n < 64 → b64_char n ≠ '=' := by
  decide

theorem b64_roundtrip : ∀ l : List Nat, (∀ x ∈ l, x < 256) →
    b64_decode (b64_encode l) = some l := by
  have H : ∀ n : Nat, ∀ l : List Nat, l.length ≤ n → (∀ x ∈ l, x < 256) →
      b64_decode (b64_encode l) = some l := by
    intro n
    induction n with
    | zero =>
      intro l hl _
      match l with
      | [] => rfl
      | _ :: _ => simp at hl
    | succ n ih =>
      intro l hlen hb
      match l with
      | [] => rfl
      | [a] =>
        have ha : a < 256 := hb a (by simp)
        have h1 : a / 4 < 64 := by omega
        have h2 : a % 4 * 16 < 64 := by omega
        simp only [b64_encode, b64_decode, b64_index_b64_char _ h1,
          b64_index_b64_char _ h2, if_pos rfl, and_self, ite_true]
        have e1 : a / 4 * 4 + a % 4 * 16 / 16 = a := by omega
        rw [e1]
      | [a, b] =>
        have ha : a < 256 := hb a (by simp)
        have hbb : b < 256 := hb b (by simp)
        have h1 : a / 4 < 64 := by omega
        have h2 : a % 4 * 16 + b / 16 < 64 := by omega
        have h3 : b % 16 * 4 < 64 := by omega
        simp only [b64_encode, b64_decode, b64_index_b64_char _ h1,
          b64_index_b64_char _ h2, b64_index_b64_char _ h3,
          if_neg (b64_char_ne_pad _ h3), if_pos rfl, ite_true]
        have e1 : a / 4 * 4 + (a % 4 * 16 + b / 16) / 16 = a := by omega
        have e2 : (a % 4 * 16 + b / 16) % 16 * 16 + b % 16 * 4 / 4 = b := by omega
        rw [e1, e2]
      | a :: b :: c :: rest =>
        have ha : a < 256 := hb a (by simp)
        have hbb : b < 256 := hb b (by simp)
        have hc : c < 256 := hb c (by simp)
        have hrest : ∀ x ∈ rest, x < 256 := by
          intro x hx; exact hb x (by simp [hx])
        have hlen2 : rest.length ≤ n := by
          simp only [List.length_cons] at hlen; omega
        have h1 : a / 4 < 64 := by omega
        have h2 : a % 4 * 16 + b / 16 < 64 := by omega
        have h3 : b % 16 * 4 + c / 64 < 64 := by omega
        have h4 : c % 64 < 64 := by omega
        simp only [b64_encode, b64_decode, b64_index_b64_char _ h1,
          b64_index_b64_char _ h2, b64_index_b64_char _ h3,
          b64_index_b64_char _ h4, if_neg (b64_char_ne_pad _ h3),
          if_neg (b64_char_ne_pad _ h4), ih rest hlen2 hrest, Option.map_some]
        have e1 : a / 4 * 4 + (a % 4 * 16 + b / 16) / 16 = a := by omega
        have e2 : (a % 4 * 16 + b / 16) % 16 * 16 + (b % 16 * 4 + c / 64) / 4 = b := by
          omega
        have e3 : (b % 16 * 4 + c / 64) % 4 * 64 + c % 64 = c := by omega
        rw [e1, e2, e3]
        rfl
  intro l hl
  exact H l.length l (le_refl _) hl

theorem b64_encode_ne_nil : ∀ l : List Nat, l ≠ [] → b64_encode l ≠ [] := by
  intro l hl
  match l with
  | [] => exact absurd rfl hl
  | [a] => simp [b64_encode]
  | [a, b] => simp [b64_encode]
  | a :: b :: c :: rest => simp [b64_encode]

theorem encrypt_ne_empty (F : FernetLike) (U : Utf8Like) (s : String)
    (hs : s ≠ "") : encrypt_sensitive_data F U s ≠ "" := by
  unfold encrypt_sensitive_data
  rw [if_neg hs]
  unfold b64_encode_string
  intro h
  have hdata : (String.mk (b64_encode (F.enc (U.encB s)))).data = ("" : String).data := by
    rw [h]
  simp only [String.data] at hdata
  exact b64_encode_ne_nil _ (F.enc_ne_nil _) hdata

theorem decrypt_encrypt (F : FernetLike) (U : Utf8Like) (s : String)
    (hs : s ≠ "") :
    decrypt_sensitive_data F U (encrypt_sensitive_data F U s) = .ok s := by
  unfold decrypt_sensitive_data
  rw [if_neg (encrypt_ne_empty F U s hs)]
  unfold encrypt_sensitive_data
  rw [if_neg hs]
  unfold b64_decode_string b64_encode_string
  have hdat : (String.mk (b64_encode (F.enc (U.encB s)))).data =
      b64_encode (F.enc (U.encB s)) := rfl
  rw [hdat]
  simp only [b64_roundtrip _ (F.enc_byte _ (U.byte_lt s)), F.dec_enc, U.decB_encB]

theorem getToken_setToken (cfg : JVal) (u v : JVal)
    (h : getToken cfg = some u) : getToken (setToken cfg v) = some v := by
  match cfg with
  | .jnull | .jbool _ | .jint _ | .jstr _ | .jlist _ => simp [getToken] at h
  | .jdict d =>
    simp only [getToken] at h
    match hd : alGet d "asana" with
    | none => rw [hd] at h; simp at h
    | some .jnull | some (.jbool _) | some (.jint _) | some (.jstr _)
    | some (.jlist _) => rw [hd] at h; simp at h
    | some (.jdict ad) =>
      rw [hd] at h
      simp only [setToken, hd, getToken, alGet_alSet_self]

theorem setToken_setToken (cfg : JVal) (u v1 v2 : JVal)
    (h : getToken cfg = some u) :
    setToken (setToken cfg v1) v2 = setToken cfg v2 := by
  match cfg with
  | .jnull | .jbool _ | .jint _ | .jstr _ | .jlist _ => simp [getToken] at h
  | .jdict d =>
    simp only [getToken] at h
    match hd : alGet d "asana" with
    | none => rw [hd] at h; simp at h
    | some .jnull | some (.jbool _) | some (.jint _) | some (.jstr _)
    | some (.jlist _) => rw [hd] at h; simp at h
    | some (.jdict ad) =>
      simp only [setToken, hd, alGet_alSet_self, alSet_alSet_self]

theorem setToken_self (cfg : JVal) (v : JVal)
    (h : getToken cfg = some v) : setToken cfg v = cfg := by
  match cfg with
  | .jnull | .jbool _ | .jint _ | .jstr _ | .jlist _ => simp [getToken] at h
  | .jdict d =>
    simp only [getToken] at h
    match hd : alGet d "asana" with
    | none => rw [hd] at h; simp at h
    | some .jnull | some (.jbool _) | some (.jint _) | some (.jstr _)
    | some (.jlist _) => rw [hd] at h; simp at h
    | some (.jdict ad) =>
      rw [hd] at h
      simp only [setToken, hd]
      rw [alSet_eq_of_get ad "access_token" v h,
        alSet_eq_of_get d "asana" (.jdict ad) hd]

theorem tokenStr_of_getToken (cfg : JVal) (t : String)
    (h : getToken cfg = some (.jstr t)) : tokenStr cfg = t := by
  simp [tokenStr, h]

theorem validate_ok_token (cfg : JVal) (b : Bool)
    (h : validate_config cfg = .ok b) (v : JVal) (hv : getToken cfg = some v) :
    ∃ t : String, v = .jstr t := by
  match cfg with
  | .jnull => simp [validate_config] at h
  | .jbool _ => simp [validate_config] at h
  | .jint _ => simp [validate_config] at h
  | .jstr _ => simp [validate_config] at h
  | .jlist _ => simp [validate_config] at h
  | .jdict d =>
    match hga : alGet d "asana" with
    | none => simp [getToken, hga] at hv
    | some .jnull => simp [getToken, hga] at hv
    | some (.jbool _) => simp [getToken, hga] at hv
    | some (.jint _) => simp [getToken, hga] at hv
    | some (.jstr _) => simp [getToken, hga] at hv
    | some (.jlist _) => simp [getToken, hga] at hv
    | some (.jdict ad) =>
      simp only [getToken, hga] at hv
      have ha : alHas d "asana" = true := by simp [alHas, hga]
      have hav : alGetD d "asana" JVal.jnull = .jdict ad := by
        simp [alGetD, hga]
      have htv : alGetD ad "access_token" (JVal.jstr "") = v := by
        simp [alGetD, hv]
      match v with
      | .jstr t => exact ⟨t, rfl⟩
      | .jnull =>
        exfalso
        simp only [validate_config, ha, hav, htv] at h
        cases hex : alHas d "export" <;> rw [hex] at h <;>
          cases hui : alHas d "ui" <;> rw [hui] at h <;> simp [isStr] at h
      | .jbool _ =>
        exfalso
        simp only [validate_config, ha, hav, htv] at h
        cases hex : alHas d "export" <;> rw [hex] at h <;>
          cases hui : alHas d "ui" <;> rw [hui] at h <;> simp [isStr] at h
      | .jint _ =>
        exfalso
        simp only [validate_config, ha, hav, htv] at h
        cases hex : alHas d "export" <;> rw [hex] at h <;>
          cases hui : alHas d "ui" <;> rw [hui] at h <;> simp [isStr] at h
      | .jlist _ =>
        exfalso
        simp only [validate_config, ha, hav, htv] at h
        cases hex : alHas d "export" <;> rw [hex] at h <;>
          cases hui : alHas d "ui" <;> rw [hui] at h <;> simp [isStr] at h
      | .jdict _ =>
        exfalso
        simp only [validate_config, ha, hav, htv] at h
        cases hex : alHas d "export" <;> rw [hex] at h <;>
          cases hui : alHas d "ui" <;> rw [hui] at h <;> simp [isStr] at h

/-- Claim C1: for every valid configuration mapping, `save_config`
followed by `load_config` returns a mapping equal to the one passed to
save — the access token is encrypted at rest and decrypted back to the
caller's original plaintext on load. -/
theorem claim_C1_save_load_roundtrip
    (F : FernetLike) (U : Utf8Like) (w : World) (cfg : JVal) (b : Bool)
    (hsave : w.saveOk = true) (hvalid : validate_config cfg = .ok b) :
    ∃ w2 : World, save_config F U w cfg = .ok w2 ∧
      load_config F U w2 = .ok cfg := by
  unfold save_config
  rw [hvalid]
  rcases hg : getToken cfg with _ | tv
  · refine ⟨{ w with file := some cfg, fileCorrupt := false }, ?_, ?_⟩
    · rw [hsave]
      exact rfl
    · simp only [load_config]
      rw [hg]
      simp only [hvalid]
      rfl
  · obtain ⟨t, rfl⟩ := validate_ok_token cfg b hvalid tv hg
    dsimp only
    by_cases htr : t = ""
    · subst htr
      have hfalse : pyTruthy (.jstr "") = false := by simp [pyTruthy]
      rw [hfalse]
      refine ⟨{ w with file := some cfg, fileCorrupt := false }, ?_, ?_⟩
      · rw [hsave]
        exact rfl
      · simp only [load_config]
        rw [hg]
        dsimp only
        rw [hfalse]
        simp [hvalid]
    · have htrue : pyTruthy (.jstr t) = true := by simp [pyTruthy, htr]
      rw [htrue, tokenStr_of_getToken cfg t hg]
      have hene : encrypt_sensitive_data F U t ≠ "" := encrypt_ne_empty F U t htr
      refine ⟨{ w with
          file := some (setToken cfg (.jstr (encrypt_sensitive_data F U t))),
          fileCorrupt := false }, ?_, ?_⟩
      · rw [hsave]
        exact rfl
      · simp only [load_config]
        have hgt2 : getToken (setToken cfg (.jstr (encrypt_sensitive_data F U t))) =
            some (.jstr (encrypt_sensitive_data F U t)) :=
          getToken_setToken cfg (.jstr t) _ hg
        rw [hgt2]
        dsimp only
        have htrue2 : pyTruthy (.jstr (encrypt_sensitive_data F U t)) = true := by
          simp [pyTruthy, hene]
        rw [htrue2, tokenStr_of_getToken _ _ hgt2, decrypt_encrypt F U t htr]
        have hcollapse :
            setToken (setToken cfg (.jstr (encrypt_sensitive_data F U t))) (.jstr t) = cfg := by
          rw [setToken_setToken cfg (.jstr t) _ _ hg, setToken_self cfg (.jstr t) hg]
        simp [hcollapse, hvalid]

/-- Claim C1 witness: a concrete valid configuration with a non-empty
access token round-trips through save and load. -/
theorem claim_C1_witness :
    ∃ w2 : World,
      save_config fernetW utf8W {}
        (JVal.jdict
          [ ("asana", .jdict
              [ ("access_token", .jstr "tok123"),
                ("selected_project_id", .jstr "42"),
                ("selected_project_name", .jstr "proj") ]),
            ("export", .jdict
              [ ("default_date_range", .jint 30),
                ("selected_fields", .jlist [.jstr "name"]),
                ("output_directory", .jstr "/tmp/out") ]),
            ("ui", .jdict
              [ ("window_size", .jstr "800x600"),
                ("last_export_path", .jstr "") ]) ]) = .ok w2 ∧
      load_config fernetW utf8W w2 = .ok
        (JVal.jdict
          [ ("asana", .jdict
              [ ("access_token", .jstr "tok123"),
                ("selected_project_id", .jstr "42"),
                ("selected_project_name", .jstr "proj") ]),
            ("export", .jdict
              [ ("default_date_range", .jint 30),
                ("selected_fields", .jlist [.jstr "name"]),
                ("output_directory", .jstr "/tmp/out") ]),
            ("ui", .jdict
              [ ("window_size", .jstr "800x600"),
                ("last_export_path", .jstr "") ]) ]) :=
  claim_C1_save_load_roundtrip fernetW utf8W {} _ true rfl rfl

/-- Claim C3: `validate_date_range` succeeds exactly when start ≤ end,
both dates are ≤ today, the span is at most 365 days, and start is at
least today − 365; in particular (today−365, today) is accepted while
(today−366, today) and (today, today+1) are rejected.  Every rejection is
a `DateValidationError` (the function's error type). -/
theorem claim_C3_validate_date_range :
    (∀ today s e : Int, exceptOk (validate_date_range today s e) = true ↔
      (s ≤ e ∧ s ≤ today ∧ e ≤ today ∧ e - s ≤ 365 ∧ today - 365 ≤ s)) ∧
    (∀ today : Int,
      exceptOk (validate_date_range today (today - 365) today) = true ∧
      exceptOk (validate_date_range today (today - 366) today) = false ∧
      exceptOk (validate_date_range today today (today + 1)) = false) := by
  have key : ∀ today s e : Int, exceptOk (validate_date_range today s e) = true ↔
      (s ≤ e ∧ s ≤ today ∧ e ≤ today ∧ e - s ≤ 365 ∧ today - 365 ≤ s) := by
    intro today s e
    unfold validate_date_range MAX_DATE_RANGE_DAYS
    split_ifs with h1 h2 h3 h4 h5 <;> simp [exceptOk] <;> omega
  refine ⟨key, fun today => ⟨(key _ _ _).mpr (by omega), ?_, ?_⟩⟩
  · cases hx : exceptOk (validate_date_range today (today - 366) today)
    · rfl
    · exfalso
      have := (key today (today - 366) today).mp hx
      omega
  · cases hx : exceptOk (validate_date_range today today (today + 1))
    · rfl
    · exfalso
      have := (key today today (today + 1)).mp hx
      omega

/-- Claim C3 witness at a fixed today. -/
theorem claim_C3_witness :
    exceptOk (validate_date_range 20000 19635 20000) = true :=
  (claim_C3_validate_date_range.1 20000 19635 20000).mpr (by decide)

/-- Claim C9: decrypting an encryption of any non-empty string returns the
original, and the empty string passes through both helpers untouched —
stated for every primitive pair, so the empty-string cases in particular
hold without invoking the underlying primitive. -/
theorem claim_C9_encrypt_decrypt :
    ∀ (F : FernetLike) (U : Utf8Like) (s : String),
      (s ≠ "" → decrypt_sensitive_data F U (encrypt_sensitive_data F U s) = .ok s) ∧
      encrypt_sensitive_data F U "" = "" ∧
      decrypt_sensitive_data F U "" = .ok "" := by
  intro F U s
  refine ⟨fun hs => decrypt_encrypt F U s hs, rfl, rfl⟩

/-- Claim C9 witness on a concrete primitive pair and string. -/
theorem claim_C9_witness :
    decrypt_sensitive_data fernetW utf8W
      (encrypt_sensitive_data fernetW utf8W "secret-token") = .ok "secret-token" :=
  (claim_C9_encrypt_decrypt fernetW utf8W "secret-token").1 (by decide)

/-- Claim C10 (implicit): the exporter's progress callback is only ever
invoked with values clamped into [0, 100], whatever the internally
computed progress value was. -/
theorem claim_C10_progress_clamped :
    ∀ (has_callback : Bool) (progress v : Int),
      update_progress has_callback progress = some v → 0 ≤ v ∧ v ≤ 100 := by
  intro has_callback progress v h
  unfold update_progress at h
  split_ifs at h
  · have hv : v = min (max progress 0) 100 := by
      exact (Option.some.inj h).symm
    subst hv
    constructor
    · exact le_min (le_max_right _ _) (by norm_num)
    · exact min_le_right _ _

/-- Claim C10 witness: an out-of-range internal value (150) reaches the
callback clamped. -/
theorem claim_C10_witness : (0 : Int) ≤ 100 ∧ (100 : Int) ≤ 100 :=
  claim_C10_progress_clamped true 150 100 (by decide)

/-- Claim C2: `validate_selected_fields` always returns a list containing
both `name` and `created_at`, never a key outside the static catalog;
an empty input yields exactly the default five-field selection; for a
non-empty input the missing required fields are inserted at the front
(in check order, so "created_at" ends up ahead of "name" when both are
missing) and the relative order of surviving input keys is preserved. -/
theorem claim_C2_validate_selected_fields :
    ∀ l : List String,
      "name" ∈ validate_selected_fields l ∧
      "created_at" ∈ validate_selected_fields l ∧
      (∀ x ∈ validate_selected_fields l, x ∈ AVAILABLE_FIELD_KEYS) ∧
      (l = [] → validate_selected_fields l = DEFAULT_SELECTED_FIELDS) ∧
      (l ≠ [] → validate_selected_fields l =
        ((if "created_at" ∈ l then ([] : List String) else ["created_at"]) ++
         (if "name" ∈ l then ([] : List String) else ["name"])) ++
          l.filter (fun f => decide (f ∈ AVAILABLE_FIELD_KEYS))) := by
  intro l
  by_cases hl : l = []
  · subst hl
    refine ⟨by decide, by decide, by decide, fun _ => rfl, fun h => absurd rfl h⟩
  · have hkey : validate_selected_fields l =
        ((if "created_at" ∈ l then ([] : List String) else ["created_at"]) ++
         (if "name" ∈ l then ([] : List String) else ["name"])) ++
          l.filter (fun f => decide (f ∈ AVAILABLE_FIELD_KEYS)) := by
      unfold validate_selected_fields
      rw [if_neg (by simpa [List.isEmpty_iff] using hl)]
      have hnk : decide (("name" : String) ∈ AVAILABLE_FIELD_KEYS) = true := by decide
      have hck : decide (("created_at" : String) ∈ AVAILABLE_FIELD_KEYS) = true := by decide
      simp only [REQUIRED_FIELDS, List.foldl]
      by_cases h1 : ("name" : String) ∈ l
      · rw [if_pos h1]
        by_cases h2 : ("created_at" : String) ∈ l
        · rw [if_pos h2, if_pos h2, if_pos h1]
          simp
        · rw [if_neg h2, if_neg h2, if_pos h1]
          simp [List.filter, hck]
      · rw [if_neg h1]
        by_cases h2 : ("created_at" : String) ∈ l
        · rw [if_pos (by simp [h2]), if_pos h2, if_neg h1]
          simp [List.filter, hnk]
        · rw [if_neg (by simp [h1, h2]), if_neg h2, if_neg h1]
          simp [List.filter, hnk, hck]
    refine ⟨?_, ?_, ?_, fun h => absurd h hl, fun _ => hkey⟩
    · rw [hkey]
      by_cases h1 : ("name" : String) ∈ l
      · simp only [List.mem_append, List.mem_filter, decide_eq_true_eq]
        exact Or.inr ⟨h1, by decide⟩
      · simp [h1]
    · rw [hkey]
      by_cases h2 : ("created_at" : String) ∈ l
      · simp only [List.mem_append, List.mem_filter, decide_eq_true_eq]
        exact Or.inr ⟨h2, by decide⟩
      · simp [h2]
    · rw [hkey]
      intro x hx
      simp only [List.mem_append, List.mem_filter, decide_eq_true_eq] at hx
      rcases hx with (hx | hx) | ⟨_, hx⟩
      · split_ifs at hx <;> simp_all <;> decide
      · split_ifs at hx <;> simp_all <;> decide
      · exact hx

/-- Claim C2 witness: a single optional field gets both required fields
inserted at the front; the empty input returns the default selection. -/
theorem claim_C2_witness :
    "name" ∈ validate_selected_fields [ "due_date"] ∧
    validate_selected_fields [] = DEFAULT_SELECTED_FIELDS ∧
    validate_selected_fields [ "due_date"] =
      ["created_at", "name", "due_date"] := by
  refine ⟨(claim_C2_validate_selected_fields [ "due_date"]).1,
    (claim_C2_validate_selected_fields []).2.2.2.1 rfl, ?_⟩
  rw [(claim_C2_validate_selected_fields [ "due_date"]).2.2.2.2 (by decide)]
  decide

/-- `pyTrunc` of a non-negative rational lying in `[n, n+1)` is `n`. -/
theorem pyTrunc_nonneg_eq (q : ℚ) (n : Int) (h0 : 0 ≤ q) (h1 : (n : ℚ) ≤ q)
    (h2 : q < n + 1) : pyTrunc q = n := by
  unfold pyTrunc
  rw [if_neg (not_lt.mpr h0)]
  exact Int.floor_eq_iff.mpr ⟨h1, h2⟩

/-- Claim C5 counterexample: with every attempt answered HTTP 429 and no
Retry-After header, the request loop sleeps only 1 and 2 seconds (not
1, 2 and 4) before raising the rate-limit failure: `_handle_rate_limit`
raises on the final attempt before any third sleep. -/
theorem claim_C5_counterexample :
    make_request_sim (fun _ => none) (fun _ => ⟨429, none⟩) =
      ([1, 2], .rateLimited) ∧
    (make_request_sim (fun _ => none) (fun _ => ⟨429, none⟩)).1 ≠
      ([1, 2, 4] : List ℚ) := by
  have key : make_request_sim (fun _ => none) (fun _ => ⟨429, none⟩) =
      ([1, 2], .rateLimited) := by
    unfold make_request_sim MAX_RETRIES
    unfold make_request_loop
    norm_num [MAX_RETRIES, RETRY_DELAY]
    unfold make_request_loop
    norm_num [MAX_RETRIES, RETRY_DELAY]
    unfold make_request_loop
    norm_num [MAX_RETRIES, RETRY_DELAY]
  refine ⟨key, ?_⟩
  rw [key]
  intro h
  simp at h

/-- Claim C5 amended: when every attempt receives HTTP 429 with no
Retry-After header, the client sleeps 1 second after the first attempt
and 2 seconds after the second (the exponential fallback
`2^attempt * RETRY_DELAY`), then raises the rate-limit failure on the
third attempt without sleeping again. -/
theorem claim_C5_rate_limit_sleeps
    (pyFloat : String → Option ℚ) (responses : Nat → RLResponse)
    (h : ∀ n, n < MAX_RETRIES → responses n = ⟨429, none⟩) :
    make_request_sim pyFloat responses = ([1, 2], .rateLimited) := by
  unfold make_request_sim MAX_RETRIES
  unfold make_request_loop
  rw [h 0 (by decide)]
  norm_num [MAX_RETRIES]
  unfold make_request_loop
  rw [h 1 (by decide)]
  norm_num [MAX_RETRIES]
  unfold make_request_loop
  rw [h 2 (by decide)]
  norm_num [MAX_RETRIES, RETRY_DELAY]

/-- Claim C5 amended witness. -/
theorem claim_C5_witness :
    make_request_sim (fun _ => some 9) (fun _ => ⟨429, none⟩) =
      ([1, 2], .rateLimited) :=
  claim_C5_rate_limit_sleeps (fun _ => some 9) (fun _ => ⟨429, none⟩)
    (fun _ _ => rfl)

/-- Claim C6 counterexample: `estimate_processing_time(1000, 5)` is 15,
not 1 — the base term 1000·0.01 plus the format term 1000·0.005 is 15
seconds, well above the one-second floor. -/
theorem claim_C6_counterexample :
    estimate_processing_time 1000 5 = 15 ∧
    estimate_processing_time 1000 5 ≠ 1 := by
  have h : pyTrunc (((1000 : Int) : ℚ) * 0.01 * (1 + (((5 : Int) : ℚ) - 5) * 0.1) +
      ((1000 : Int) : ℚ) * 0.005) = 15 := by
    apply pyTrunc_nonneg_eq <;> norm_num
  have key : estimate_processing_time 1000 5 = 15 := by
    simp only [estimate_processing_time]
    rw [h]
    decide
  exact ⟨key, by rw [key]; decide⟩

/-- Claim C6 amended: `estimate_processing_time(1000,5)` equals 15; the
one-second floor shows at genuinely small inputs such as (10, 5);
`estimate_processing_time(1000000, 5)` clamps to 300; and
`get_memory_usage_estimate(0, 5)` is the pure overhead floor 10. -/
theorem claim_C6_estimates :
    estimate_processing_time 1000 5 = 15 ∧
    estimate_processing_time 10 5 = 1 ∧
    estimate_processing_time 1000000 5 = 300 ∧
    get_memory_usage_estimate 0 5 = 10 := by
  refine ⟨?_, ?_, ?_, ?_⟩
  · have h : pyTrunc (((1000 : Int) : ℚ) * 0.01 * (1 + (((5 : Int) : ℚ) - 5) * 0.1) +
        ((1000 : Int) : ℚ) * 0.005) = 15 := by
      apply pyTrunc_nonneg_eq <;> norm_num
    simp only [estimate_processing_time]
    rw [h]
    decide
  · have h : pyTrunc (((10 : Int) : ℚ) * 0.01 * (1 + (((5 : Int) : ℚ) - 5) * 0.1) +
        ((10 : Int) : ℚ) * 0.005) = 0 := by
      apply pyTrunc_nonneg_eq <;> norm_num
    simp only [estimate_processing_time]
    rw [h]
    decide
  · have h : pyTrunc (((1000000 : Int) : ℚ) * 0.01 * (1 + (((5 : Int) : ℚ) - 5) * 0.1) +
        ((1000000 : Int) : ℚ) * 0.005) = 15000 := by
      apply pyTrunc_nonneg_eq <;> norm_num
    simp only [estimate_processing_time]
    rw [h]
    decide
  · have h : pyTrunc (((0 : Int) : ℚ) * (((5 : Int) : ℚ) * 0.5) / 1024 +
        max 10 (((0 : Int) : ℚ) * (((5 : Int) : ℚ) * 0.5) / 1024 * 0.3)) = 10 := by
      apply pyTrunc_nonneg_eq <;> norm_num
    simp only [get_memory_usage_estimate]
    rw [h]

/-- Claim C7 counterexample: `get_default_config` cannot satisfy the
claimed documents-or-home fallback, because it ignores whether the
documents directory exists — it would have to return two different paths
for the same `home`. -/
theorem claim_C7_counterexample :
    ¬ (∀ (home : String) (docsExists : Bool),
        outputDirOf (get_default_config home) =
          some (if docsExists then home ++ "/Documents" else home)) := by
  intro h
  have h1 := h "/h" true
  have h2 := h "/h" false
  rw [if_pos rfl] at h1
  rw [if_neg (by simp)] at h2
  rw [h1] at h2
  have h3 : ("/h" ++ "/Documents" : String) = "/h" := Option.some.inj h2
  exact absurd h3 (by decide)

/-- Claim C7 amended: `ConfigManager.get_default_config` always sets
`output_directory` to the documents path `home / "Documents"` with no
existence check; the documents-or-home fallback is performed instead by
`ConfigInitializer.initialize_default_config`. -/
theorem claim_C7_default_output_directory :
    (∀ home : String,
      outputDirOf (get_default_config home) = some (home ++ "/Documents")) ∧
    (∀ (F : FernetLike) (U : Utf8Like) (w : World) (c : AppConfigM) (w2 : World),
      initialize_default_config F U w = .ok (c, w2) →
      c.exportCfg.output_directory =
        (if w.docsExists then w.home ++ "/Documents" else w.home)) := by
  constructor
  · intro home
    rfl
  · intro F U w c w2 h
    unfold initialize_default_config at h
    split at h
    · dsimp only at h
      split at h
      · simp only [Except.ok.injEq, Prod.mk.injEq] at h
        rw [← h.1]
        simp_all
      · simp at h
    · dsimp only at h
      split at h
      · simp only [Except.ok.injEq, Prod.mk.injEq] at h
        rw [← h.1]
        simp_all
      · simp at h

/-- Claim C7 witness: with the documents directory absent, the
initializer's output directory is the bare home directory while
`get_default_config` still names the documents path. -/
theorem claim_C7_witness :
    outputDirOf (get_default_config "/h") = some ("/h" ++ "/Documents") ∧
    ({ asana := {},
       exportCfg := { default_date_range := 30,
                      selected_fields := DEFAULT_SELECTED_FIELDS,
                      output_directory := "/h" },
       ui := {} } : AppConfigM).exportCfg.output_directory =
      (if ({ home := "/h", docsExists := false } : World).docsExists then
        ({ home := "/h", docsExists := false } : World).home ++ "/Documents"
      else ({ home := "/h", docsExists := false } : World).home) := by
  constructor
  · exact claim_C7_default_output_directory.1 "/h"
  · exact claim_C7_default_output_directory.2 fernetW utf8W
      { home := "/h", docsExists := false } _
      { ({} : World) with
          home := "/h", docsExists := false,
          file := some (AppConfigM.to_dict
            { asana := {},
              exportCfg := { default_date_range := 30,
                             selected_fields := DEFAULT_SELECTED_FIELDS,
                             output_directory := "/h" },
              ui := {} }) } rfl

theorem pick_fields_acc_mono (base : List (String × CellVal)) (x : String) :
    ∀ (sel : List String) (acc : List (String × CellVal)),
      (alGet acc x).isSome = true →
      (alGet (pick_fields base sel acc) x).isSome = true := by
  intro sel
  induction sel with
  | nil => intro acc h; simpa [pick_fields] using h
  | cons key rest ih =>
    intro acc h
    unfold pick_fields
    rcases hb : alGet base key with _ | v
    · exact ih acc h
    · dsimp only
      by_cases ha : (alGet acc key).isSome = true
      · rw [if_pos ha]
        exact ih acc h
      · rw [if_neg ha]
        exact ih _ (alGet_append_isSome acc [(key, v)] x h)

theorem pick_fields_mem (base : List (String × CellVal)) (x : String)
    (hx : (alGet base x).isSome = true) :
    ∀ (sel : List String) (acc : List (String × CellVal)),
      x ∈ sel →
      (alGet (pick_fields base sel acc) x).isSome = true := by
  intro sel
  induction sel with
  | nil => intro acc h; simp at h
  | cons key rest ih =>
    intro acc hmem
    unfold pick_fields
    by_cases hk : key = x
    · subst hk
      rcases hb : alGet base key with _ | v
      · rw [hb] at hx; simp at hx
      · dsimp only
        by_cases ha : (alGet acc key).isSome = true
        · rw [if_pos ha]
          exact pick_fields_acc_mono base key rest acc ha
        · rw [if_neg ha]
          exact pick_fields_acc_mono base key rest _
            (alGet_append_single acc key v)
    · have hmem2 : x ∈ rest := by
        rcases List.mem_cons.mp hmem with h | h
        · exact absurd h.symm hk
        · exact h
      rcases hb : alGet base key with _ | v
      · exact ih acc hmem2
      · dsimp only
        by_cases ha : (alGet acc key).isSome = true
        · rw [if_pos ha]
          exact ih acc hmem2
        · rw [if_neg ha]
          exact ih _ hmem2

theorem foldl_alSet_isSome (x : String) :
    ∀ (kvs : List (String × CellVal)) (l : List (String × CellVal)),
      (alGet l x).isSome = true →
      (alGet (kvs.foldl (fun acc kv => alSet acc kv.1 kv.2) l) x).isSome = true := by
  intro kvs
  induction kvs with
  | nil => intro l h; simpa using h
  | cons kv rest ih =>
    intro l h
    simp only [List.foldl]
    exact ih _ (alGet_alSet_isSome l kv.1 x kv.2 h)

/-- Every row `Task.to_dict` produces for a selection containing `name`
(or for the full-mapping path) carries a `name` entry. -/
theorem to_dict_has_name (t : TaskM) (sel : List String)
    (hn : "name" ∈ sel) :
    (alGet (t.to_dict (some sel)) "name").isSome = true := by
  unfold TaskM.to_dict
  dsimp only
  have hbase : (alGet (t.custom_fields.foldl (fun acc kv => alSet acc kv.1 kv.2)
      [ ("id", CellVal.vstr t.id),
        ("name", CellVal.vstr t.name),
        ("created_at", CellVal.vstr (datetime_isoformat t.created_at)),
        ("modified_at", CellVal.vstr (datetime_isoformat t.modified_at)),
        ("completed", CellVal.vbool t.completed),
        ("assignee", match t.assignee with
          | some a => CellVal.vstr a
          | none => CellVal.vnull),
        ("due_date", match t.due_date with
          | some d => CellVal.vstr (datetime_isoformat d)
          | none => CellVal.vnull),
        ("notes", CellVal.vstr t.notes) ]) "name").isSome = true := by
    apply foldl_alSet_isSome
    simp [alGet]
  by_cases he : sel.isEmpty = true
  · have hse : sel = [] := by simpa using he
    rw [hse] at hn
    simp at hn
  · rw [if_neg he]
    exact pick_fields_mem _ _ hbase sel [] hn

/-- Claim C4: for non-empty valid tasks and a selection that omits
`name` (non-empty, with at least one available field), every produced row
contains a `name` entry — the required-field force-add re-inserts `name`
before conversion. -/
theorem claim_C4_filter_preserves_name
    (pyset : List String → List String)
    (hset : ∀ (l : List String) (x : String), x ∈ pyset l ↔ x ∈ l)
    (tasks : List TaskM) (selected_fields : List String)
    (fdefs : Option (List FieldDefM))
    (htasks : tasks ≠ [])
    (hvalid : ∀ t ∈ tasks, t.Valid)
    (hnoname : "name" ∉ selected_fields)
    (hsel : selected_fields ≠ [])
    (havail : ∃ f ∈ selected_fields, f ∈ availableFieldsOf fdefs) :
    ∃ rows, filter_tasks_by_fields pyset tasks selected_fields fdefs = .ok rows ∧
      rows ≠ [] ∧ ∀ row ∈ rows, (alGet row "name").isSome = true := by
  rcases tasks with _ | ⟨t0, trest⟩
  · exact absurd rfl htasks
  rcases selected_fields with _ | ⟨s0, srest⟩
  · exact absurd rfl hsel
  obtain ⟨f0, hf0sel, hf0A⟩ := havail
  unfold filter_tasks_by_fields
  dsimp only
  set A := availableFieldsOf fdefs with hA
  set inv := (s0 :: srest).filter (fun f => decide (f ∉ A)) with hinv
  set sel1 := (if inv.isEmpty = true then s0 :: srest
    else (s0 :: srest).filter (fun f => decide (f ∈ A))) with hsel1
  have hc1 : ¬ ((t0 :: trest).isEmpty = true) := by simp
  rw [if_neg hc1]
  have hc2 : ¬ ((s0 :: srest).isEmpty = true) := by simp
  rw [if_neg hc2]
  have hsub : ∀ x, x ∈ sel1 → x ∈ s0 :: srest := by
    intro x hx
    rw [hsel1] at hx
    by_cases hcond : inv.isEmpty = true
    · rw [if_pos hcond] at hx
      exact hx
    · rw [if_neg hcond] at hx
      exact (List.mem_filter.mp hx).1
  have hc3 : ¬ (¬ inv.isEmpty = true ∧ sel1.isEmpty = true) := by
    rintro ⟨hni, he⟩
    rw [hsel1] at he
    by_cases hcond : inv.isEmpty = true
    · exact hni hcond
    · rw [if_neg hcond] at he
      have hf : f0 ∈ (s0 :: srest).filter (fun f => decide (f ∈ A)) :=
        List.mem_filter.mpr ⟨hf0sel, by simpa using hf0A⟩
      rw [List.isEmpty_iff] at he
      rw [he] at hf
      simp at hf
  rw [if_neg hc3]
  have hnksel1 : "name" ∉ sel1 := fun hmem => hnoname (hsub _ hmem)
  have hname_miss : "name" ∈ get_required_field_names.filter
      (fun f => decide (f ∉ sel1)) :=
    List.mem_filter.mpr ⟨by decide, by simpa using hnksel1⟩
  have hc4 : ¬ ((get_required_field_names.filter
      (fun f => decide (f ∉ sel1))).isEmpty = true) := by
    intro he
    rw [List.isEmpty_iff] at he
    rw [he] at hname_miss
    simp at hname_miss
  rw [if_neg hc4]
  have hname2 : "name" ∈ pyset (sel1 ++ get_required_field_names.filter
      (fun f => decide (f ∉ sel1))) := by
    rw [hset]
    exact List.mem_append.mpr (Or.inr hname_miss)
  have hc5 : ¬ (((t0 :: trest).map (fun t => t.to_dict (some (pyset (sel1 ++
      get_required_field_names.filter (fun f => decide (f ∉ sel1))))))).isEmpty = true ∧
      ¬ ((t0 :: trest).isEmpty = true)) := by
    rintro ⟨he, _⟩
    simp at he
  rw [if_neg hc5]
  refine ⟨_, rfl, by simp, ?_⟩
  intro row hrow
  rw [List.mem_map] at hrow
  obtain ⟨t, htmem, rfl⟩ := hrow
  exact to_dict_has_name t _ hname2

/-- Claim C4 witness: one valid task, selection `[completed]` (omitting
`name`), static catalog. -/
theorem claim_C4_witness :
    ∃ rows, filter_tasks_by_fields (fun l => l)
        [{ id := "1", name := "t", created_at := 0, modified_at := 0,
           completed := false }] [ "completed"] none = .ok rows ∧
      rows ≠ [] ∧ ∀ row ∈ rows, (alGet row "name").isSome = true :=
  claim_C4_filter_preserves_name (fun l => l) (fun _ _ => Iff.rfl)
    [{ id := "1", name := "t", created_at := 0, modified_at := 0,
       completed := false }] [ "completed"] none
    (List.cons_ne_nil _ _)
    (by intro t ht
        simp only [List.mem_singleton] at ht
        subst ht
        refine ⟨by decide, by decide, by decide, by decide⟩)
    (by decide) (List.cons_ne_nil _ _)
    ⟨ "completed", by decide, by decide⟩

theorem validate_default_shape (c : AppConfigM)
    (hd : c.exportCfg.default_date_range = 30)
    (hw : c.ui.window_size = "800x600") :
    validate_config (AppConfigM.to_dict c) = .ok true := by
  obtain ⟨⟨tok, pid, pn⟩, ⟨ddr, fields, outdir⟩, ⟨ws, lep⟩⟩ := c
  dsimp only at hd hw
  subst hd
  subst hw
  rfl

theorem save_ok_of_validate (F : FernetLike) (U : Utf8Like) (w : World)
    (cfg : JVal) (b : Bool) (hs : w.saveOk = true)
    (hv : validate_config cfg = .ok b) :
    ∃ w2, save_config F U w cfg = .ok w2 := by
  unfold save_config
  rw [hv]
  rcases hg : getToken cfg with _ | tv
  · rw [hs]
    exact ⟨_, rfl⟩
  · dsimp only
    by_cases htr : pyTruthy tv = true
    · rw [if_pos htr, hs]
      exact ⟨_, rfl⟩
    · rw [if_neg htr, hs]
      exact ⟨_, rfl⟩

theorem init_default_ok (F : FernetLike) (U : Utf8Like) (w : World)
    (hs : w.saveOk = true) :
    exceptOk (initialize_default_config F U w) = true := by
  unfold initialize_default_config
  dsimp only
  obtain ⟨w2, hw2⟩ := save_ok_of_validate F U w
    (AppConfigM.to_dict
      { asana := (mkAppConfigDefault w.home).asana,
        exportCfg :=
          { default_date_range := (mkAppConfigDefault w.home).exportCfg.default_date_range,
            selected_fields := DEFAULT_SELECTED_FIELDS,
            output_directory := if w.docsExists = true then w.home ++ "/Documents" else w.home },
        ui := (mkAppConfigDefault w.home).ui })
    true hs (validate_default_shape _ rfl rfl)
  rw [hw2]
  rfl

/-- Claim C8 counterexample: with a failing disk, `setup_application` DOES
propagate a failure — the caught exception triggers the fallback to
`initialize_default_config`, whose own save failure is re-raised
unguarded. -/
theorem claim_C8_counterexample :
    exceptOk (setup_application fernetW utf8W { saveOk := false } "" "" none) =
      false := by
  rfl

/-- Claim C8 amended: every exception inside `setup_application`'s
orchestration is caught and answered with a fallback call to
`initialize_default_config`; the call returns normally whenever that
fallback's persistence succeeds, and can only raise out of the fallback
itself. -/
theorem claim_C8_setup_fallback (F : FernetLike) (U : Utf8Like) (w : World)
    (access_token output_directory : String)
    (selected_fields : Option (List String)) (hs : w.saveOk = true) :
    exceptOk (setup_application F U w access_token output_directory
      selected_fields) = true := by
  unfold setup_application
  dsimp only
  split
  · rfl
  · exact init_default_ok F U w hs

/-- Claim C8 amended witness. -/
theorem claim_C8_witness :
    exceptOk (setup_application fernetW utf8W {} "" "" none) = true :=
  claim_C8_setup_fallback fernetW utf8W {} "" "" none rfl
